import Mathlib

/-
Verification of the network-discovery-agent repository against its
natural-language specification.

The repository has two source files:
  src/agent/cli.py           three placeholder CLI commands
  src/agent/config_loader.py load_configs, reading the 'scan_configs' table
The module src/agent/supabase_client.py is imported by config_loader.py but
is absent from the sources, so the remote-store client behaviour is modelled
from the specification.  The scan scheduling and execution engine described
by the specification (ScheduleEvaluator, RunExecutor, Scheduler, ConfigStore)
is entirely unimplemented in the repository and is likewise modelled from the
specification's words.
-/

/-! ## Remote table store -/

/-- A row of the remote table store: an opaque record, kept as a list of
named string fields.  The engine never inspects row contents. -/
structure Row where
  fields : List (String × String)
deriving DecidableEq

/-- Error kinds of the remote store, from the specification's error
taxonomy: unreachable service and write rejection. -/
inductive StoreError where
  | storeUnavailable
  | storeWrite
deriving DecidableEq

/-- Modelled from the spec: the module `src/agent/supabase_client.py` is
imported by `config_loader.py` but missing from the sources.  The client is
modelled as a state holding a reachability flag and the contents of each
table, keyed by table name. -/
structure Supabase where
  reachable : Bool
  tables : String → List Row

/-- An intermediate query-builder value: `supabase.table(name)`. -/
structure TableRef where
  client : Supabase
  name : String

/-- An intermediate query-builder value: `supabase.table(name).select(cols)`. -/
structure SelectQuery where
  client : Supabase
  name : String
  columns : String

/-- The response object returned by `execute()`, holding a `data` field. -/
structure QueryResponse where
  data : List Row
deriving DecidableEq

def Supabase.table (s : Supabase) (name : String) : TableRef :=
  ⟨s, name⟩

def TableRef.select (t : TableRef) (columns : String) : SelectQuery :=
  ⟨t.client, t.name, columns⟩

/-- Column projection applied by the store to each row: selecting the
wildcard column spec returns the row unchanged; selecting a named column
keeps only fields of that name. -/
def projectRow (columns : String) (r : Row) : Row :=
  if columns = "*" then r else ⟨r.fields.filter (fun f => f.1 = columns)⟩

/-- Modelled from the spec: executing a select query against the remote
store.  An unreachable service fails with `StoreUnavailableError`; otherwise
the store responds with the (projected) rows of the named table. -/
def SelectQuery.execute (q : SelectQuery) : Except StoreError QueryResponse :=
  if q.client.reachable then
    .ok ⟨(q.client.tables q.name).map (projectRow q.columns)⟩
  else
    .error .storeUnavailable

/-- Embedding of `load_configs` from `src/agent/config_loader.py`:
`resp = supabase.table('scan_configs').select('*').execute()` followed by
`return resp.data`.  Exceptions of the client propagate unhandled. -/
def load_configs (supabase : Supabase) : Except StoreError (List Row) := do
  let resp ← ((supabase.table "scan_configs").select "*").execute
  return resp.data

/-! ## CLI commands -/

/-- Observable effects a CLI command could perform: printing a line
(`typer.echo`), querying the remote store, invoking the scanner on a
target, or running a scheduler tick. -/
inductive Effect where
  | echo (line : String)
  | storeQuery (table : String) (columns : String)
  | scanProbe (target : String)
  | schedulerTick
deriving DecidableEq

/-- Whether an effect is a plain output line. -/
def Effect.isOutput : Effect → Bool
  | .echo _ => true
  | _ => false

/-- Embedding of the `list-configs` command from `src/agent/cli.py`.  The
command has access to the ambient store state but ignores it: its body is a
single `typer.echo` of a fixed string. -/
def list_configs_cmd (_world : Supabase) : List Effect :=
  [.echo "Placeholder: list-configs command"]

/-- Embedding of the `run` command from `src/agent/cli.py`: a single
`typer.echo` of the fixed text followed by the given config id. -/
def runScanCmd (config_id : String) (_world : Supabase) : List Effect :=
  [.echo ("Placeholder: run scan for " ++ config_id)]

/-- Embedding of the `schedule` command from `src/agent/cli.py`: a single
`typer.echo` of a fixed string. -/
def schedule_cmd (_world : Supabase) : List Effect :=
  [.echo "Placeholder: schedule scans"]

/-- A concrete store state used to evaluate commands at a specific input. -/
def exampleStore : Supabase :=
  ⟨true, fun t => if t = "scan_configs" then [⟨[("id", "c1")]⟩] else []⟩

/-- A concrete unreachable store state. -/
def downStore : Supabase :=
  ⟨false, fun _ => []⟩

/-! ## Scan scheduling and execution engine (modelled from the spec) -/

/-- Modelled from the spec: the last-status enumeration of a scan
configuration. -/
inductive LastStatus where
  | neverRun
  | success
  | failure
  | running
deriving DecidableEq

/-- Modelled from the spec: a schedule spec is either a fixed interval in
seconds or a cron-like expression (its syntax left open by the spec). -/
inductive ScheduleSpec where
  | interval (seconds : Nat)
  | cron (expr : String)
deriving DecidableEq

/-- Modelled from the spec: a scan configuration record.  Timestamps are
seconds as natural numbers. -/
structure ScanConfig where
  id : String
  target : String
  schedule : ScheduleSpec
  enabled : Bool
  lastRun : Option Nat
  lastStatus : LastStatus
deriving DecidableEq

/-- Modelled from the spec: the error raised on a malformed schedule spec. -/
inductive ConfigError where
  | malformedSchedule
deriving DecidableEq

/-- Modelled from the spec: an evaluator for cron-like expressions, left
abstract because the spec fixes no cron syntax.  `cronPrev expr now` is
`none` when the expression is malformed, `some none` when no scheduled
occurrence lies at-or-before `now`, and `some (some t)` when `t` is the most
recent scheduled occurrence at-or-before `now`. -/
def CronEval : Type := String → Nat → Option (Option Nat)

/-- Modelled from the spec, section 4.1: `ScheduleEvaluator.isDue`.
Disabled configs are never due; a null last-run is due immediately; a fixed
interval is due iff `now - lastRun >= interval`; a cron spec is due iff the
most recent occurrence at-or-before `now` is strictly after `lastRun`; a
malformed cron spec fails with `ConfigError`. -/
def ScheduleEvaluator.isDue (cronPrev : CronEval) (config : ScanConfig)
    (now : Nat) : Except ConfigError Bool :=
  if config.enabled = false then .ok false
  else
    match config.lastRun with
    | none => .ok true
    | some last =>
      match config.schedule with
      | .interval seconds => .ok (decide (last + seconds ≤ now))
      | .cron expr =>
        match cronPrev expr now with
        | none => .error .malformedSchedule
        | some none => .ok false
        | some (some occ) => .ok (decide (last < occ))

/-- Modelled from the spec: the outcome of one scanner attempt.  Wall-clock
timing is not modelled; the per-attempt timeout is reflected by the
environment reporting a timeout outcome for that attempt. -/
inductive ScanOutcome where
  | success (records : List Row)
  | transientFailure (message : String)
  | timedOut
  | invalidTarget (message : String)
deriving DecidableEq

/-- Modelled from the spec: the status of a completed run. -/
inductive RunStatus where
  | success
  | failure
  | timeout
deriving DecidableEq

/-- Modelled from the spec: the outcome of the retry loop of one run:
final status, discovered records, error detail, and the number of scan
invocations performed. -/
structure AttemptOutcome where
  status : RunStatus
  records : List Row
  errorDetail : Option String
  invocations : Nat
deriving DecidableEq

/-- Modelled from the spec, section 4.2: the retry loop of `RunExecutor`.
`scan k` is the outcome of attempt number `k`; the loop recurses on the
remaining retry budget.  Success and non-transient failure end the run at
once; transient failures and timeouts are retried while retries remain, and
the final status is derived from the last attempt's outcome. -/
def RunExecutor.attemptLoop (scan : Nat → ScanOutcome) :
    Nat → Nat → AttemptOutcome
  | 0, attempt =>
    match scan attempt with
    | .success records => ⟨.success, records, none, 1⟩
    | .invalidTarget message => ⟨.failure, [], some message, 1⟩
    | .transientFailure message => ⟨.failure, [], some message, 1⟩
    | .timedOut => ⟨.timeout, [], some "timeout", 1⟩
  | r + 1, attempt =>
    match scan attempt with
    | .success records => ⟨.success, records, none, 1⟩
    | .invalidTarget message => ⟨.failure, [], some message, 1⟩
    | .transientFailure _ =>
      let rest := RunExecutor.attemptLoop scan r (attempt + 1)
      ⟨rest.status, rest.records, rest.errorDetail, rest.invocations + 1⟩
    | .timedOut =>
      let rest := RunExecutor.attemptLoop scan r (attempt + 1)
      ⟨rest.status, rest.records, rest.errorDetail, rest.invocations + 1⟩

/-- Modelled from the spec: the immutable result of one run. -/
structure RunResult where
  configId : String
  status : RunStatus
  discovered : List Row
  errorDetail : Option String
  scanInvocations : Nat
deriving DecidableEq

/-- Modelled from the spec, section 4.2: `RunExecutor.run`.  The scanner is
an oracle giving each attempt's outcome for a target under the per-attempt
timeout; exactly one `RunResult` is produced. -/
def RunExecutor.run (config : ScanConfig)
    (scanner : String → Nat → Nat → ScanOutcome)
    (timeoutSecs maxRetries : Nat) : RunResult :=
  let a := RunExecutor.attemptLoop
    (fun k => scanner config.target timeoutSecs k) maxRetries 0
  ⟨config.id, a.status, a.records, a.errorDetail, a.invocations⟩

/-- Modelled from the spec, section 6: the engine-level `ConfigStore`,
whose `load` returns a sequence of `ScanConfig` or fails with
`StoreUnavailableError` when the service is unreachable. -/
structure ConfigStore where
  reachable : Bool
  configs : List ScanConfig

def ConfigStore.load (s : ConfigStore) : Except StoreError (List ScanConfig) :=
  if s.reachable then .ok s.configs else .error .storeUnavailable

/-- Modelled from the spec, section 4.3: the caller-side treatment of
`isDue` — a config whose schedule spec is malformed is skipped, not
crashed. -/
def dueOrSkip (cronPrev : CronEval) (config : ScanConfig) (now : Nat) : Bool :=
  match ScheduleEvaluator.isDue cronPrev config now with
  | .ok b => b
  | .error _ => false

/-- Modelled from the spec: the observable outcome of one scheduler tick:
the returned value (or store error), the in-flight set after the tick, and
the number of `RunExecutor` invocations dispatched during the tick. -/
structure TickOutcome where
  result : Except StoreError (List RunResult)
  inFlightAfter : List String
  executorInvocations : Nat

/-- Modelled from the spec, section 4.3: `Scheduler.tick`.  The store is
read first; a read failure abandons the tick with no partial execution.
Otherwise configs that are due and not in flight are dispatched, bounded by
the concurrency limit.  In this sequential collapse each dispatched run
completes within the tick, so the in-flight set is restored by tick end;
cross-tick interleaving is modelled separately by `SchedulerStep`. -/
def Scheduler.tick (cronPrev : CronEval)
    (scanner : String → Nat → Nat → ScanOutcome)
    (timeoutSecs maxRetries concurrencyLimit : Nat)
    (store : ConfigStore) (inFlight : List String) (now : Nat) : TickOutcome :=
  match store.load with
  | .error e => ⟨.error e, inFlight, 0⟩
  | .ok configs =>
    let due := (configs.filter
      (fun c => dueOrSkip cronPrev c now && !(inFlight.contains c.id))).take
      concurrencyLimit
    let results := due.map
      (fun c => RunExecutor.run c scanner timeoutSecs maxRetries)
    ⟨.ok results, inFlight, due.length⟩

/-- Modelled from the spec, sections 3 and 5: the event-level transitions
of the scheduler's in-flight set.  A dispatch adds the config's id before
the execution starts and is guarded by the filter `c.id not in inFlight`;
a completion (success or failure) removes the id.  The set is mutated by
the orchestrator only, one add or remove per critical section. -/
inductive SchedulerStep : List String → List String → Prop where
  | dispatch (c : ScanConfig) (s : List String) (h : c.id ∉ s) :
      SchedulerStep s (c.id :: s)
  | finish (id : String) (s : List String) :
      SchedulerStep s (s.erase id)

/-- States of the in-flight set reachable from the initial empty set. -/
inductive SchedulerReachable : List String → Prop where
  | init : SchedulerReachable []
  | step {s t : List String} :
      SchedulerReachable s → SchedulerStep s t → SchedulerReachable t

/-! ## Concrete inputs used by witnesses -/

/-- A concrete disabled scan configuration. -/
def disabledConfig : ScanConfig :=
  ⟨"c1", "10.0.0.0/24", .interval 60, false, some 0, .success⟩

/-- A concrete enabled scan configuration. -/
def enabledConfig : ScanConfig :=
  ⟨"c1", "10.0.0.0/24", .interval 60, true, none, .neverRun⟩

/-- A cron evaluator that treats every expression as malformed, usable as a
concrete `CronEval`. -/
def noCron : CronEval := fun _ _ => none

/-- A scanner oracle that always reports a timeout. -/
def alwaysTimedOut : String → Nat → Nat → ScanOutcome := fun _ _ _ => .timedOut

/-- A concrete unreachable engine-level config store. -/
def downConfigStore : ConfigStore := ⟨false, [enabledConfig]⟩

/-! ## Claims -/

/-- Claim C1: every invocation of each of the three CLI commands performs
no scanning, scheduling, or store access — its effect trace is exactly one
printed placeholder line. -/
theorem cli_commands_only_print (w : Supabase) (config_id : String) :
    list_configs_cmd w = [Effect.echo "Placeholder: list-configs command"] ∧
    runScanCmd config_id w =
      [Effect.echo ("Placeholder: run scan for " ++ config_id)] ∧
    schedule_cmd w = [Effect.echo "Placeholder: schedule scans"] ∧
    (list_configs_cmd w).all Effect.isOutput = true ∧
    (runScanCmd config_id w).all Effect.isOutput = true ∧
    (schedule_cmd w).all Effect.isOutput = true :=
  ⟨rfl, rfl, rfl, rfl, rfl, rfl⟩

/-- Auxiliary: selecting the wildcard column spec leaves a row unchanged. -/
theorem projectRow_star (r : Row) : projectRow "*" r = r :=
  if_pos rfl

/-- Auxiliary: the wildcard projection leaves every row of a list
unchanged. -/
theorem map_projectRow_star (l : List Row) : l.map (projectRow "*") = l := by
  induction l with
  | nil => rfl
  | cons a t ih => simp [projectRow_star, ih]

/-- Claim C2: for every reachable state of the remote store, `load_configs`
queries all columns of the scan_configs table and returns exactly the rows
the store responds with. -/
theorem load_configs_returns_store_rows (s : Supabase)
    (h : s.reachable = true) :
    load_configs s = .ok (s.tables "scan_configs") := by
  simp [load_configs, Supabase.table, TableRef.select, SelectQuery.execute, h,
    map_projectRow_star]

/-- Witness for claim C2 at a concrete reachable store. -/
theorem load_configs_returns_store_rows_witness :
    exampleStore.reachable = true ∧
    load_configs exampleStore = .ok (exampleStore.tables "scan_configs") :=
  ⟨rfl, load_configs_returns_store_rows exampleStore rfl⟩

/-- Claim C3 counterexample: at a concrete store state, the list-configs
command issues no store query at all (so it cannot invoke `load_configs`),
and its output is identical at a second, different store state. -/
theorem list_configs_cmd_no_store_query :
    Effect.storeQuery "scan_configs" "*" ∉ list_configs_cmd exampleStore ∧
    list_configs_cmd exampleStore = list_configs_cmd downStore := by
  exact ⟨by decide, rfl⟩

/-- Claim C3 amended: the list-configs command does not invoke
`load_configs`; it performs no store query and prints one fixed placeholder
line whatever the store state. -/
theorem list_configs_cmd_placeholder_only (w : Supabase) :
    list_configs_cmd w = [Effect.echo "Placeholder: list-configs command"] ∧
    ∀ t cols, Effect.storeQuery t cols ∉ list_configs_cmd w := by
  refine ⟨rfl, ?_⟩
  intro t cols h
  simp [list_configs_cmd] at h

/-- Claim C4: whenever the remote store service is unreachable,
`load_configs` fails with `StoreUnavailableError` and with no other error
kind. -/
theorem load_configs_unreachable (s : Supabase) (h : s.reachable = false) :
    load_configs s = .error .storeUnavailable := by
  simp [load_configs, Supabase.table, TableRef.select, SelectQuery.execute, h]

/-- Witness for claim C4 at a concrete unreachable store. -/
theorem load_configs_unreachable_witness :
    downStore.reachable = false ∧
    load_configs downStore = .error .storeUnavailable :=
  ⟨rfl, load_configs_unreachable downStore rfl⟩

/-- Claim C5: a tick whose store read fails surfaces
`StoreUnavailableError`, dispatches zero executor invocations and leaves
the scheduler state unchanged. -/
theorem scheduler_tick_abandoned_on_store_failure (cronPrev : CronEval)
    (scanner : String → Nat → Nat → ScanOutcome)
    (timeoutSecs maxRetries concurrencyLimit : Nat)
    (store : ConfigStore) (inFlight : List String) (now : Nat)
    (h : store.reachable = false) :
    Scheduler.tick cronPrev scanner timeoutSecs maxRetries concurrencyLimit
      store inFlight now =
      ⟨.error .storeUnavailable, inFlight, 0⟩ := by
  simp [Scheduler.tick, ConfigStore.load, h]

/-- Witness for claim C5 at a concrete unreachable store. -/
theorem scheduler_tick_abandoned_witness :
    downConfigStore.reachable = false ∧
    Scheduler.tick noCron alwaysTimedOut 30 3 4 downConfigStore ["c9"] 100 =
      ⟨.error .storeUnavailable, ["c9"], 0⟩ :=
  ⟨rfl, scheduler_tick_abandoned_on_store_failure noCron alwaysTimedOut
    30 3 4 downConfigStore ["c9"] 100 rfl⟩

/-- Claim C6: in every reachable state of the scheduler's in-flight set, at
most one execution is in flight per config identifier. -/
theorem scheduler_no_overlapping_runs {s : List String}
    (h : SchedulerReachable s) : ∀ id, s.count id ≤ 1 := by
  have hnd : s.Nodup := by
    induction h with
    | init => exact List.nodup_nil
    | step _ hs ih =>
      cases hs with
      | dispatch c t hmem => exact List.nodup_cons.mpr ⟨hmem, ih⟩
      | finish id t => exact ih.erase id
  intro id
  exact List.nodup_iff_count_le_one.mp hnd id

/-- Witness for claim C6 at a concrete reachable state. -/
theorem scheduler_no_overlapping_runs_witness :
    SchedulerReachable ["c1"] ∧ ∀ id, (["c1"] : List String).count id ≤ 1 := by
  have hr : SchedulerReachable ["c1"] :=
    SchedulerReachable.step SchedulerReachable.init
      (SchedulerStep.dispatch enabledConfig [] (by simp))
  exact ⟨hr, scheduler_no_overlapping_runs hr⟩

/-- Claim C7: a disabled configuration is never due, for any cron
evaluator and any timestamp. -/
theorem isDue_disabled_never_due (cronPrev : CronEval) (config : ScanConfig)
    (now : Nat) (h : config.enabled = false) :
    ScheduleEvaluator.isDue cronPrev config now = .ok false := by
  simp [ScheduleEvaluator.isDue, h]

/-- Witness for claim C7 at a concrete disabled configuration. -/
theorem isDue_disabled_never_due_witness :
    disabledConfig.enabled = false ∧
    ScheduleEvaluator.isDue noCron disabledConfig 100 = .ok false :=
  ⟨rfl, isDue_disabled_never_due noCron disabledConfig 100 rfl⟩

/-- Auxiliary: the retry loop performs at most `retriesLeft + 1` scan
invocations, whatever the scanner reports. -/
theorem attemptLoop_invocations_le (scan : Nat → ScanOutcome) :
    ∀ retriesLeft attempt : Nat,
      (RunExecutor.attemptLoop scan retriesLeft attempt).invocations ≤
        retriesLeft + 1 := by
  intro retriesLeft
  induction retriesLeft with
  | zero =>
    intro attempt
    simp only [RunExecutor.attemptLoop]
    cases scan attempt <;> simp
  | succ n ih =>
    intro attempt
    simp only [RunExecutor.attemptLoop]
    cases scan attempt
    · simp
    · have := ih (attempt + 1)
      simp only []
      omega
    · have := ih (attempt + 1)
      simp only []
      omega
    · simp

/-- Claim C8: one invocation of `RunExecutor.run` performs at most
`maxRetries + 1` scanner invocations. -/
theorem runExecutor_invocation_bound (config : ScanConfig)
    (scanner : String → Nat → Nat → ScanOutcome)
    (timeoutSecs maxRetries : Nat) :
    (RunExecutor.run config scanner timeoutSecs maxRetries).scanInvocations ≤
      maxRetries + 1 := by
  unfold RunExecutor.run
  exact attemptLoop_invocations_le _ maxRetries 0

/-- Claim C9: `load_configs` returns the store response's data verbatim:
for an arbitrary row list, however malformed or disabled its entries, the
very same list comes back unfiltered and untransformed. -/
theorem load_configs_verbatim (rows : List Row) (other : String → List Row) :
    load_configs ⟨true, fun t => if t = "scan_configs" then rows else other t⟩ =
      .ok rows := by
  simp [load_configs, Supabase.table, TableRef.select, SelectQuery.execute,
    map_projectRow_star]

/-- Claim C10: the run command is deterministic in its argument: its output
is the same at any two store states and is exactly one line made of the
fixed text followed by the config id. -/
theorem run_cmd_deterministic (config_id : String) (w w' : Supabase) :
    runScanCmd config_id w = runScanCmd config_id w' ∧
    runScanCmd config_id w =
      [Effect.echo ("Placeholder: run scan for " ++ config_id)] :=
  ⟨rfl, rfl⟩
